import Mathlib

/-
  Verification of the credential/usage-ledger core of the trc_platform backend.

  Shallow embedding, translated from the Python sources:
    - backend/usage/models.py        (BillingPeriod, RequestLog)
    - backend/usage/utils.py         (get_or_create_current_billing_period)
    - backend/customers/models.py    (ApiToken.revoke)
    - backend/core/authentication_optimized.py   (TokenCache, OptimizedBearerTokenAuthentication)
    - backend/core/middleware/optimized_token_auth.py (OptimizedTokenAuthMiddleware)
    - backend/core/views.py          (SolveView.post, SolveView._defer_logging)

  Conventions: Django model rows become Lean structures; the database becomes an
  explicit Db value threaded through operations; Python ValueError becomes
  Except.error; wall-clock instants are Nat; machine side effects that no claim
  mentions (logging, request attribute mutation, last_used touches) are omitted.
-/

set_option maxHeartbeats 1000000

namespace Trc

/-- A calendar date, modelling Python datetime.date (proleptic Gregorian). -/
structure Date where
  year : Nat
  month : Nat
  day : Nat
deriving DecidableEq

/-- Gregorian leap-year rule used by Python datetime.date arithmetic. -/
def isLeapYear (y : Nat) : Bool :=
  (y % 4 = 0 && y % 100 ≠ 0) || y % 400 = 0

/-- Number of days in month m of year y (Gregorian). -/
def daysInMonth (y m : Nat) : Nat :=
  if m = 2 then (if isLeapYear y then 29 else 28)
  else if m = 4 ∨ m = 6 ∨ m = 9 ∨ m = 11 then 30
  else 31

/-- Python date - timedelta(days=1) on a valid date. -/
def prevDay (d : Date) : Date :=
  if 2 ≤ d.day then ⟨d.year, d.month, d.day - 1⟩
  else if 2 ≤ d.month then ⟨d.year, d.month - 1, daysInMonth d.year (d.month - 1)⟩
  else ⟨d.year - 1, 12, 31⟩

/-- Spec-side comparator for claim C2: the last day of calendar month (y, m).
This follows the spec's words ("period_end is the last day of that month"),
to be compared with the source's timedelta computation. -/
def lastDayOfMonth (y m : Nat) : Date := ⟨y, m, daysInMonth y m⟩

/-- usage/models.py PAYMENT_STATUS_CHOICES. -/
inductive PaymentStatus where
  | pending
  | paid
  | overdue
  | waived
deriving DecidableEq

/-- One billing_periods row (usage/models.py, class BillingPeriod).
created_at/updated_at are bookkeeping no claim mentions and are omitted. -/
structure BillingPeriod where
  id : Nat
  userId : Nat
  period_start : Date
  period_end : Date
  total_requests : Int
  total_cost_cents : Int
  is_current : Bool
  payment_status : PaymentStatus
  paid_at : Option Nat
  paid_amount_cents : Option Int
  payment_reference : Option String
  payment_notes : Option String
deriving DecidableEq

/-- Python "a or b" for a : Option Int (None and 0 are falsy), as used in
mark_as_paid's "amount_cents or self.total_cost_cents". -/
def pyOrInt (a : Option Int) (b : Int) : Int :=
  match a with
  | none => b
  | some n => if n = 0 then b else n

/-- BillingPeriod.can_be_marked_paid (usage/models.py). -/
def can_be_marked_paid (p : BillingPeriod) : Bool :=
  !p.is_current && (p.payment_status = .pending || p.payment_status = .overdue)

/-- BillingPeriod.mark_as_paid (usage/models.py).  ValueError becomes
Except.error; now models django timezone.now(). -/
def mark_as_paid (p : BillingPeriod) (now : Nat) (amount_cents : Option Int)
    (reference : Option String) (notes : Option String) : Except String BillingPeriod :=
  if p.is_current then .error "Cannot mark current billing period as paid"
  else if p.payment_status = .paid then .error "Billing period is already marked as paid"
  else .ok { p with
    payment_status := .paid
    paid_at := some now
    paid_amount_cents := some (pyOrInt amount_cents p.total_cost_cents)
    payment_reference := reference
    payment_notes := notes }

/-- BillingPeriod.mark_as_overdue (usage/models.py). -/
def mark_as_overdue (p : BillingPeriod) : Except String BillingPeriod :=
  if p.is_current then .error "Cannot mark current billing period as overdue"
  else if p.payment_status = .paid then .error "Cannot mark paid billing period as overdue"
  else .ok { p with payment_status := .overdue }

/-- BillingPeriod.mark_as_waived (usage/models.py). -/
def mark_as_waived (p : BillingPeriod) (notes : Option String) : Except String BillingPeriod :=
  if p.is_current then .error "Cannot waive current billing period"
  else .ok { p with payment_status := .waived, payment_notes := notes }

/-- Whether an Except value is the ok case. -/
def exceptOk {ε α : Type} (e : Except ε α) : Bool :=
  match e with
  | .ok _ => true
  | .error _ => false

/-- One api_tokens row (customers/models.py, class ApiToken).  The source's
token_prefix column — the short, indexable, non-secret marker derived from
the secret — is modelled by the field fingerprint, the spec's name for it. -/
structure ApiTokenRec where
  id : Nat
  userId : Nat
  name : String
  fingerprint : String
  token_hash : String
  revoked_at : Option Nat
  last_used_at : Option Nat
deriving DecidableEq

/-- ApiToken.is_revoked (customers/models.py). -/
def is_revoked (t : ApiTokenRec) : Bool := t.revoked_at.isSome

/-- ApiToken.revoke (customers/models.py): unconditionally stamps revoked_at
with the current time and saves.  ApiTokenRevokeView.perform_destroy calls
this with no guard. -/
def revoke (t : ApiTokenRec) (now : Nat) : ApiTokenRec :=
  { t with revoked_at := some now }

/-- One entry of the in-memory token validation cache: the OrderedDict maps a
cache key to the tuple (user, token, timestamp); here the tuple payload is an
abstract value together with the insertion timestamp. -/
structure CacheEntry (α : Type) where
  key : String
  val : α
  timestamp : Nat
deriving DecidableEq

/-- TokenCache (core/authentication_optimized.py; the middleware in
core/middleware/optimized_token_auth.py defines the identical class).  The
OrderedDict is a list whose head is the front (the side popitem evicts from)
and whose end is the most-recently inserted or promoted side.  The Lock makes
each get/set one atomic step, which is how they are modelled. -/
structure TokenCache (α : Type) where
  cache : List (CacheEntry α)
  max_size : Nat
  ttl_seconds : Nat
  hits : Nat
  misses : Nat
deriving DecidableEq

/-- Delete the entry with the given key (OrderedDict del). -/
def removeKey {α : Type} (key : String) : List (CacheEntry α) → List (CacheEntry α)
  | [] => []
  | e :: es => if e.key = key then es else e :: removeKey key es

/-- TokenCache.get: on a hit within the TTL, promote the entry to the
most-recently-used end and return it with found = true; on an expired entry
delete it and miss; otherwise miss. -/
def TokenCache.get {α : Type} (c : TokenCache α) (key : String) (now : Nat) :
    Option α × Bool × TokenCache α :=
  match c.cache.find? (fun e => e.key = key) with
  | some e =>
    if now - e.timestamp < c.ttl_seconds then
      (some e.val, true,
        { c with cache := removeKey key c.cache ++ [e], hits := c.hits + 1 })
    else
      (none, false, { c with cache := removeKey key c.cache, misses := c.misses + 1 })
  | none => (none, false, { c with misses := c.misses + 1 })

/-- Python dict assignment self.cache[key] = (user, token, time): an existing
key keeps its OrderedDict position and only its stored tuple is replaced; a
fresh key is appended at the most-recently-used end. -/
def assocSet {α : Type} (l : List (CacheEntry α)) (key : String) (v : α) (now : Nat) :
    List (CacheEntry α) :=
  if (l.find? (fun e => e.key = key)).isSome then
    l.map (fun e => if e.key = key then { e with val := v, timestamp := now } else e)
  else l ++ [⟨key, v, now⟩]

/-- TokenCache.set: when at capacity first evict the front entry (popitem from
the front), then store the value under the key. -/
def TokenCache.set {α : Type} (c : TokenCache α) (key : String) (v : α) (now : Nat) :
    TokenCache α :=
  let l := if c.max_size ≤ c.cache.length then c.cache.tail else c.cache
  { c with cache := assocSet l key v now }

/-- One cache operation together with the wall-clock instant it happens at. -/
inductive CacheOp (α : Type) where
  | get (key : String) (now : Nat)
  | set (key : String) (v : α) (now : Nat)

/-- Apply one operation, keeping the resulting cache state. -/
def applyOp {α : Type} (c : TokenCache α) : CacheOp α → TokenCache α
  | .get k now => (c.get k now).2.2
  | .set k v now => c.set k v now

/-- Run a sequence of cache operations from a starting state. -/
def runOps {α : Type} (c : TokenCache α) : List (CacheOp α) → TokenCache α
  | [] => c
  | op :: ops => runOps (applyOp c op) ops

/-- The cache state built by TokenCache.__init__. -/
def emptyCache (α : Type) (ms ttl : Nat) : TokenCache α :=
  { cache := [], max_size := ms, ttl_seconds := ttl, hits := 0, misses := 0 }

/-- A full two-entry cache whose LRU head is k1; concrete input for C10. -/
def c10CacheExample : TokenCache Nat :=
  { cache := [⟨"k1", 1, 0⟩, ⟨"k2", 2, 1⟩], max_size := 2, ttl_seconds := 300,
    hits := 0, misses := 0 }

/-- One users row (customers/models.py, class User): the fields the resolver
reads. -/
structure UserRec where
  id : Nat
  email : String
  is_active : Bool
  email_verified_at : Option Nat
deriving DecidableEq

/-- User.is_email_verified (customers/models.py). -/
def is_email_verified (u : UserRec) : Bool := u.email_verified_at.isSome

/-- The outcome tuple (user, token) both resolvers cache: both components are
none for a negative outcome, both some for a positive one. -/
abbrev AuthVal := Option UserRec × Option ApiTokenRec

/-- Python str.startswith, written as a take-and-compare so that concrete
instances evaluate in the kernel. -/
def startswith (s pre : String) : Bool := String.take s pre.length == pre

/-- External collaborators of the resolver: the sha256-based cache-key digest,
the credential-store query by the 12-character fingerprint (the
select_related get in _authenticate_token, returning the token row joined
with its user, or none for DoesNotExist), and Argon2 PasswordHasher.verify
applied to (stored hash, presented token), false on VerifyMismatchError. -/
structure AuthEnv where
  cacheKeyHash : String → String
  store_lookup : String → Option (ApiTokenRec × UserRec)
  verifyHash : String → String → Bool

/-- OptimizedBearerTokenAuthentication._get_cache_key: the first 12 characters
of the token joined with a digest of the whole token (the middleware defines
the identical function). -/
def get_cache_key (env : AuthEnv) (token : String) : String :=
  String.take token 12 ++ ":" ++ env.cacheKeyHash token

/-- Instrumentation: how many store lookups, hash verifications and cache
operations one resolve performed. -/
structure AuthCounters where
  store_lookups : Nat
  verify_calls : Nat
  cache_gets : Nat
  cache_sets : Nat
deriving DecidableEq

/-- OptimizedBearerTokenAuthentication._authenticate_token: one store query by
the token's first 12 characters, then revocation/eligibility checks, then
hash verification.  DoesNotExist and every failed check yield (None, None). -/
def authenticate_token (env : AuthEnv) (token : String) :
    (Option UserRec × Option ApiTokenRec) × AuthCounters :=
  match env.store_lookup (String.take token 12) with
  | none => ((none, none), ⟨1, 0, 0, 0⟩)
  | some (api_token, u) =>
    if is_revoked api_token || !u.is_active || !(is_email_verified u) then
      ((none, none), ⟨1, 0, 0, 0⟩)
    else if env.verifyHash api_token.token_hash token then
      ((some u, some api_token), ⟨1, 1, 0, 0⟩)
    else
      ((none, none), ⟨1, 1, 0, 0⟩)

/-- OptimizedBearerTokenAuthentication.authenticate: structural checks on the
Authorization header, then the shared TokenCache, then the store+verifier
path whose outcome — negative included — is cached.  none is the DRF signal
for unauthenticated.  The best-effort last_used touch on the positive path
writes no state any claim mentions and is omitted. -/
def authenticate (env : AuthEnv) (c : TokenCache AuthVal) (auth_header : String)
    (now : Nat) :
    Option (UserRec × Option ApiTokenRec) × TokenCache AuthVal × AuthCounters :=
  if (auth_header == "") || !(startswith auth_header "Bearer ") then
    (none, c, ⟨0, 0, 0, 0⟩)
  else
    let token := String.drop auth_header 7
    if !(startswith token "tok_") then (none, c, ⟨0, 0, 0, 0⟩)
    else
      let key := get_cache_key env token
      let r := TokenCache.get c key now
      if r.2.1 then
        match r.1 with
        | some (some u, tok) => (some (u, tok), r.2.2, ⟨0, 0, 1, 0⟩)
        | _ => (none, r.2.2, ⟨0, 0, 1, 0⟩)
      else
        let a := authenticate_token env token
        let c2 := TokenCache.set r.2.2 key a.1 now
        match a.1 with
        | (some u, some t) =>
          (some (u, some t), c2, ⟨a.2.store_lookups, a.2.verify_calls, 1, 1⟩)
        | _ => (none, c2, ⟨a.2.store_lookups, a.2.verify_calls, 1, 1⟩)

/-- OptimizedTokenAuthMiddleware._extract_token. -/
def extract_token (auth_header : String) : Option String :=
  if startswith auth_header "Bearer " then some (String.drop auth_header 7)
  else none

/-- OptimizedTokenAuthMiddleware._authenticate_token: unlike the DRF class,
the tok_ structural check lives here — after the cache; past that check the
body is the same query/checks/verify as the DRF _authenticate_token. -/
def mw_authenticate_token (env : AuthEnv) (token : String) :
    (Option UserRec × Option ApiTokenRec) × AuthCounters :=
  if !(startswith token "tok_") then ((none, none), ⟨0, 0, 0, 0⟩)
  else authenticate_token env token

/-- OptimizedTokenAuthMiddleware._authenticate_token_cached: consults the
cache before any structural check on the token, and caches even the
structurally-invalid negative outcome. -/
def mw_authenticate_token_cached (env : AuthEnv) (c : TokenCache AuthVal)
    (token : String) (now : Nat) :
    (Option UserRec × Option ApiTokenRec) × TokenCache AuthVal × AuthCounters :=
  let key := get_cache_key env token
  let r := TokenCache.get c key now
  if r.2.1 then
    ((match r.1 with | some v => v | none => (none, none)), r.2.2, ⟨0, 0, 1, 0⟩)
  else
    let a := mw_authenticate_token env token
    (a.1, TokenCache.set r.2.2 key a.1 now,
      ⟨a.2.store_lookups, a.2.verify_calls, 1, 1⟩)

/-- The authentication section of OptimizedTokenAuthMiddleware.__call__ for a
request that is not already session-authenticated: extract the Bearer token
and resolve it through the cache. -/
def mw_process_header (env : AuthEnv) (c : TokenCache AuthVal) (auth_header : String)
    (now : Nat) :
    (Option UserRec × Option ApiTokenRec) × TokenCache AuthVal × AuthCounters :=
  match extract_token auth_header with
  | none => ((none, none), c, ⟨0, 0, 0, 0⟩)
  | some token => mw_authenticate_token_cached env c token now

/-- A concrete resolver environment with an empty credential store; input for
the C5 witness and the C7 counterexample. -/
def envExample : AuthEnv :=
  { cacheKeyHash := fun t => String.take t 4
    store_lookup := fun _ => none
    verifyHash := fun _ _ => false }

/-- A non-current, already paid billing period; concrete input for C3. -/
def paidPeriodExample : BillingPeriod :=
  { id := 1, userId := 1, period_start := ⟨2025, 1, 1⟩, period_end := ⟨2025, 1, 31⟩,
    total_requests := 3, total_cost_cents := 300, is_current := false,
    payment_status := .paid, paid_at := some 10, paid_amount_cents := some 300,
    payment_reference := none, payment_notes := none }

/-- A non-current pending billing period with a nonzero total; concrete input for C9. -/
def pendingPeriodExample : BillingPeriod :=
  { id := 2, userId := 1, period_start := ⟨2025, 2, 1⟩, period_end := ⟨2025, 2, 28⟩,
    total_requests := 5, total_cost_cents := 500, is_current := false,
    payment_status := .pending, paid_at := none, paid_amount_cents := none,
    payment_reference := none, payment_notes := none }

/-- An already revoked token; concrete input for C8. -/
def revokedTokenExample : ApiTokenRec :=
  { id := 1, userId := 1, name := "ci", fingerprint := "tok_abcdefgh",
    token_hash := "h1", revoked_at := some 5, last_used_at := none }

/-- One request_logs row (usage/models.py, class RequestLog); request_ts is
auto-set bookkeeping and omitted. -/
structure RequestLogRow where
  id : Nat
  userId : Nat
  tokenId : Option Nat
  billing_periodId : Option Nat
  service : String
  duration_ms : Nat
  request_bytes : Nat
  response_bytes : Nat
  status : String
  error_code : Option String
  request_id : Nat
  result : Option String
deriving DecidableEq

/-- The relational store of the ledger: billing-period rows, request-log rows
and a fresh-id supply standing in for uuid4 primary keys. -/
structure Db where
  periods : List BillingPeriod
  logs : List RequestLogRow
  nextId : Nat
deriving DecidableEq

/-- The queryset update
BillingPeriod.objects.filter(user=..., is_current=True).update(is_current=False)
in get_or_create_current_billing_period: one UPDATE over the stored rows. -/
def clear_current_periods (periods : List BillingPeriod) (u : Nat) :
    List BillingPeriod :=
  periods.map (fun p =>
    if p.userId = u && p.is_current then { p with is_current := false } else p)

/-- The single-row UPDATE issued by save with update_fields, keyed by the
primary key. -/
def update_row (periods : List BillingPeriod) (pid : Nat) (p' : BillingPeriod) :
    List BillingPeriod :=
  periods.map (fun q => if q.id = pid then p' else q)

/-- usage/utils.py get_or_create_current_billing_period: compute the month
bounds from today, flip every currently-current period of the user to
not-current, then get-or-create the (user, period_start) row with defaults
period_end and is_current=true, re-flagging a fetched not-current row. -/
def get_or_create_current_billing_period (db : Db) (userId : Nat) (today : Date) :
    BillingPeriod × Db :=
  let period_start : Date := { today with day := 1 }
  let period_end : Date :=
    if period_start.month = 12 then
      prevDay ⟨period_start.year + 1, 1, 1⟩
    else
      prevDay ⟨period_start.year, period_start.month + 1, 1⟩
  let flipped := clear_current_periods db.periods userId
  match flipped.find? (fun p => p.userId = userId && p.period_start = period_start) with
  | some p =>
    if p.is_current then (p, { db with periods := flipped })
    else
      let p' := { p with is_current := true }
      (p', { db with periods := update_row flipped p.id p' })
  | none =>
    let p : BillingPeriod :=
      { id := db.nextId, userId := userId, period_start := period_start,
        period_end := period_end, total_requests := 0, total_cost_cents := 0,
        is_current := true, payment_status := .pending, paid_at := none,
        paid_amount_cents := none, payment_reference := none, payment_notes := none }
    (p, { db with periods := flipped ++ [p], nextId := db.nextId + 1 })

/-- The UPDATE generated by saving total_requests = F("total_requests") + 1
and total_cost_cents = F("total_cost_cents") + cost: a read-free atomic
increment applied to the stored row values, keyed by the period id. -/
def apply_f_increment (db : Db) (periodId : Nat) (cost : Int) : Db :=
  { db with periods := db.periods.map (fun p =>
      if p.id = periodId then
        { p with total_requests := p.total_requests + 1,
                 total_cost_cents := p.total_cost_cents + cost }
      else p) }

/-- Row lookup by primary key. -/
def findPeriod (db : Db) (periodId : Nat) : Option BillingPeriod :=
  db.periods.find? (fun p => p.id = periodId)

/-- The metering metadata SolveView.post hands to _defer_logging. -/
structure SolveArgs where
  userId : Nat
  today : Date
  tokenId : Option Nat
  duration_ms : Nat
  image_len : Nat
  request_id : Nat
  cost_per_request_cents : Int
deriving DecidableEq

/-- The transaction body of SolveView._defer_logging: resolve the current
period, insert one RequestLog row, then save the two F-expression
increments.  insert_fails / increment_fails inject an infrastructure failure
at the respective store write; an error aborts and rolls back the whole
transaction.atomic block. -/
def defer_logging_body (insert_fails increment_fails : Bool) (db : Db)
    (a : SolveArgs) (result : Option String) (status_code : String)
    (error_code : Option String) : Except Unit Db :=
  let r := get_or_create_current_billing_period db a.userId a.today
  if insert_fails then .error () else
  let log : RequestLogRow :=
    { id := r.2.nextId, userId := a.userId, tokenId := a.tokenId,
      billing_periodId := some r.1.id, service := "core.image_solve",
      duration_ms := a.duration_ms, request_bytes := a.image_len,
      response_bytes := match result with | some s => s.length | none => 0,
      status := status_code, error_code := error_code,
      request_id := a.request_id, result := result }
  let db2 := { r.2 with logs := r.2.logs ++ [log], nextId := r.2.nextId + 1 }
  if increment_fails then .error () else
  .ok (apply_f_increment db2 r.1.id a.cost_per_request_cents)

/-- SolveView._defer_logging: the try/except around the transaction — on a
failure the transaction is rolled back and the exception is swallowed
("Log but don't fail the request"), leaving the store unchanged. -/
def defer_logging (insert_fails increment_fails : Bool) (db : Db) (a : SolveArgs)
    (result : Option String) (status_code : String) (error_code : Option String) :
    Db :=
  match defer_logging_body insert_fails increment_fails db a result
      status_code error_code with
  | .ok db' => db'
  | .error _ => db

/-- The outcome of the openai_client.solve_image call inside SolveView.post. -/
inductive SolveOutcome where
  | success (result : String)
  | openai_error (code : String)
deriving DecidableEq

/-- What SolveView.post reports to its caller. -/
structure SolveResponse where
  http_status : Nat
  ok : Bool
deriving DecidableEq

/-- SolveView.post from the metering point on (user authenticated, image
extracted, settings loaded): the success branch and the OpenAIError branch
both call _defer_logging, then answer 200 or 500 respectively. -/
def solve_post (insert_fails increment_fails : Bool) (db : Db) (a : SolveArgs)
    (outcome : SolveOutcome) : SolveResponse × Db :=
  match outcome with
  | .success r =>
    ({ http_status := 200, ok := true },
      defer_logging insert_fails increment_fails db a (some r) "success" none)
  | .openai_error code =>
    ({ http_status := 500, ok := false },
      defer_logging insert_fails increment_fails db a none "error" (some code))

/-- An empty store; concrete input for C4. -/
def dbExample : Db :=
  { periods := [], logs := [], nextId := 10 }

/-- Concrete metering metadata; input for the C4 counterexample. -/
def argsExample : SolveArgs :=
  { userId := 7, today := ⟨2025, 12, 15⟩, tokenId := some 3, duration_ms := 42,
    image_len := 2048, request_id := 99, cost_per_request_cents := 50 }

/-- C3 counterexample: the claim says waiving a paid period raises an
IllegalStateTransition-class error, but mark_as_waived on a non-current paid
period succeeds (the method only guards is_current), so the claim as stated
is false at this input. -/
theorem c3_payment_state_machine_counterexample :
    exceptOk (mark_as_waived paidPeriodExample (some "n")) = true := by decide

/-- C3 amended: the guards actually implemented are: mark_as_paid succeeds iff
the period is non-current and not already paid; mark_as_overdue succeeds iff
the period is non-current and not paid; mark_as_waived succeeds iff the period
is non-current.  Hence the permitted transitions are
pending|overdue|waived to paid, pending|overdue|waived to overdue, and
any non-current status to waived; each violation raises (Except.error), and
on success the status becomes the target status. -/
theorem c3_payment_state_machine_amended (p : BillingPeriod) (now : Nat)
    (amt : Option Int) (r notes : Option String) :
    (exceptOk (mark_as_paid p now amt r notes) =
      (!p.is_current && !(p.payment_status = .paid)))
    ∧ (exceptOk (mark_as_overdue p) = (!p.is_current && !(p.payment_status = .paid)))
    ∧ (exceptOk (mark_as_waived p notes) = !p.is_current)
    ∧ (∀ q, mark_as_paid p now amt r notes = .ok q → q.payment_status = .paid)
    ∧ (∀ q, mark_as_overdue p = .ok q → q.payment_status = .overdue)
    ∧ (∀ q, mark_as_waived p notes = .ok q → q.payment_status = .waived) := by
  refine ⟨?_, ?_, ?_, ?_, ?_, ?_⟩ <;>
    simp only [mark_as_paid, mark_as_overdue, mark_as_waived, exceptOk] <;>
    by_cases hc : p.is_current <;>
    by_cases hp : p.payment_status = .paid <;>
    simp [hc, hp]

/-- C3 amended witness: the amended characterization evaluated on the concrete
paid period (waiving it succeeds because the period is not current). -/
theorem c3_payment_state_machine_amended_witness :
    exceptOk (mark_as_waived paidPeriodExample none) = !paidPeriodExample.is_current :=
  (c3_payment_state_machine_amended paidPeriodExample 0 none none none).2.2.1

/-- C8 counterexample: revoking an already revoked token is not a no-op; it
overwrites revoked_at (stamped 5) with the new current time 9. -/
theorem c8_revoke_counterexample :
    (revoke revokedTokenExample 9).revoked_at ≠ revokedTokenExample.revoked_at := by
  decide

/-- C8 amended: revoke never raises (it is a total update): it always sets
revoked_at to the current instant — so a second revoke leaves the token
revoked but silently refreshes its revokedAt timestamp instead of leaving the
stored record unchanged. -/
theorem c8_revoke_amended (t : ApiTokenRec) (now : Nat) :
    (revoke t now).revoked_at = some now ∧ is_revoked (revoke t now) = true := by
  exact ⟨rfl, rfl⟩

/-- C9: mark_as_paid with amount_cents = some 0 on a payable (non-current,
pending or overdue) period falls back to the period total: Python's
"amount_cents or self.total_cost_cents" treats 0 as falsy exactly like None. -/
theorem c9_zero_amount_falls_back (p : BillingPeriod) (now : Nat)
    (r notes : Option String) (hcur : p.is_current = false)
    (hst : p.payment_status = .pending ∨ p.payment_status = .overdue) :
    ∃ q, mark_as_paid p now (some 0) r notes = .ok q ∧
      q.paid_amount_cents = some p.total_cost_cents := by
  have hp : ¬ p.payment_status = .paid := by
    rcases hst with h | h <;> simp [h]
  simp [mark_as_paid, hcur, hp, pyOrInt]

/-- C9 witness: the fallback evaluated on a concrete pending period whose
total is 500 cents. -/
theorem c9_zero_amount_falls_back_witness :
    pendingPeriodExample.is_current = false ∧
    ∃ q, mark_as_paid pendingPeriodExample 7 (some 0) none none = .ok q ∧
      q.paid_amount_cents = some pendingPeriodExample.total_cost_cents :=
  ⟨rfl, c9_zero_amount_falls_back pendingPeriodExample 7 none none rfl (Or.inl rfl)⟩

/-- Deleting a key that find? locates shortens the list by exactly one. -/
theorem removeKey_length {α : Type} (key : String) :
    ∀ l : List (CacheEntry α),
      (l.find? (fun x => x.key = key)).isSome →
      (removeKey key l).length + 1 = l.length := by
  intro l
  induction l with
  | nil => simp
  | cons a t ih =>
    by_cases ha : a.key = key
    · intro _; simp [removeKey, ha]
    · intro h
      have h' : (t.find? (fun x => x.key = key)).isSome := by
        rw [List.find?_cons_of_neg] at h
        · exact h
        · simp [ha]
      have := ih h'
      simp only [removeKey, ha, if_false, List.length_cons]
      omega

/-- Deleting a key never lengthens the list. -/
theorem removeKey_length_le {α : Type} (key : String) :
    ∀ l : List (CacheEntry α), (removeKey key l).length ≤ l.length := by
  intro l
  induction l with
  | nil => simp [removeKey]
  | cons a t ih =>
    by_cases ha : a.key = key <;> simp [removeKey, ha] <;> omega

/-- find? over an append succeeds iff it succeeds on either part. -/
theorem findIsSome_append {α : Type} (p : α → Bool) (l₁ l₂ : List α) :
    ((l₁ ++ l₂).find? p).isSome = ((l₁.find? p).isSome || (l₂.find? p).isSome) := by
  induction l₁ with
  | nil => simp
  | cons a t ih =>
    by_cases h : p a
    · simp [List.find?_cons_of_pos, h]
    · simpa [List.find?_cons_of_neg, h] using ih

/-- A map that preserves every entry's key preserves find?-by-key success. -/
theorem findIsSome_map_keypres {α : Type} (f : CacheEntry α → CacheEntry α)
    (hf : ∀ e, (f e).key = e.key) (key : String) (l : List (CacheEntry α)) :
    ((l.map f).find? (fun e => e.key = key)).isSome =
      (l.find? (fun e => e.key = key)).isSome := by
  induction l with
  | nil => simp
  | cons a t ih =>
    have hcomp : ((fun (e : CacheEntry α) => decide (e.key = key)) ∘ f) =
        (fun (e : CacheEntry α) => decide (e.key = key)) := by
      funext e; simp [hf]
    by_cases hk : a.key = key
    · simp [List.find?, hf, hk]
    · simp [List.find?, hf, hk, List.find?_map, hcomp, ih]

/-- The in-place update of assocSet preserves every key, so find?-by-key
succeeds on the updated list iff it did before. -/
theorem findIsSome_map_update {α : Type} (key k2 : String) (v : α) (now : Nat)
    (l : List (CacheEntry α)) :
    ((l.map (fun e => if e.key = k2 then { e with val := v, timestamp := now } else e)).find?
      (fun e => e.key = key)).isSome = (l.find? (fun e => e.key = key)).isSome := by
  apply findIsSome_map_keypres
  intro e
  split <;> rfl

/-- assocSet grows the list by at most one entry. -/
theorem assocSet_length_le {α : Type} (l : List (CacheEntry α)) (key : String) (v : α)
    (now : Nat) : (assocSet l key v now).length ≤ l.length + 1 := by
  unfold assocSet
  split
  · simp
  · simp

/-- assocSet never loses a key that was present. -/
theorem assocSet_keeps_key {α : Type} (l : List (CacheEntry α)) (key k2 : String) (v : α)
    (now : Nat) (h : (l.find? (fun e => e.key = key)).isSome) :
    ((assocSet l k2 v now).find? (fun e => e.key = key)).isSome := by
  unfold assocSet
  split
  · rw [findIsSome_map_update]; exact h
  · rw [findIsSome_append]; simp [h]

/-- If find? fails on a list it fails on its tail. -/
theorem find_none_tail {α : Type} (p : α → Bool) (l : List α) (h : l.find? p = none) :
    l.tail.find? p = none := by
  cases l with
  | nil => simp
  | cons a t =>
    rw [List.find?_eq_none] at h ⊢
    intro x hx
    exact h x (List.mem_cons_of_mem a hx)

/-- get does not touch capacity or TTL configuration. -/
theorem get_max_ttl {α : Type} (c : TokenCache α) (k : String) (now : Nat) :
    ((c.get k now).2.2).max_size = c.max_size ∧
    ((c.get k now).2.2).ttl_seconds = c.ttl_seconds := by
  unfold TokenCache.get
  cases h : c.cache.find? (fun e => e.key = k)
  · simp
  · simp only []
    split <;> simp

/-- set does not touch capacity or TTL configuration. -/
theorem set_max_ttl {α : Type} (c : TokenCache α) (k : String) (v : α) (now : Nat) :
    ((c.set k v now)).max_size = c.max_size ∧
    ((c.set k v now)).ttl_seconds = c.ttl_seconds :=
  ⟨rfl, rfl⟩

/-- get never grows the cache. -/
theorem get_len_le {α : Type} (c : TokenCache α) (k : String) (now : Nat) :
    ((c.get k now).2.2).cache.length ≤ c.cache.length := by
  unfold TokenCache.get
  cases h : c.cache.find? (fun e => e.key = k)
  · simp
  · have hs : (c.cache.find? (fun e => e.key = k)).isSome := by rw [h]; rfl
    have := removeKey_length k c.cache hs
    simp only []
    split <;> simp <;> omega

/-- set keeps the cache within capacity, for a positive capacity. -/
theorem set_len_bound {α : Type} (c : TokenCache α) (k : String) (v : α) (now : Nat)
    (hpos : 0 < c.max_size) (hlen : c.cache.length ≤ c.max_size) :
    (c.set k v now).cache.length ≤ c.max_size := by
  unfold TokenCache.set
  by_cases hcap : c.max_size ≤ c.cache.length
  · have hone : 1 ≤ c.cache.length := le_trans hpos hcap
    have := assocSet_length_le (c.cache.tail) k v now
    have htail : c.cache.tail.length = c.cache.length - 1 := by
      cases c.cache <;> simp
    simp only [hcap, if_true]
    omega
  · have := assocSet_length_le c.cache k v now
    simp only [hcap, if_false]
    omega

/-- applyOp keeps the configured capacity. -/
theorem applyOp_max {α : Type} (c : TokenCache α) (op : CacheOp α) :
    (applyOp c op).max_size = c.max_size := by
  cases op with
  | get k now => exact (get_max_ttl c k now).1
  | set k v now => rfl

/-- applyOp keeps the cache within a positive capacity. -/
theorem applyOp_len {α : Type} (c : TokenCache α) (op : CacheOp α)
    (hpos : 0 < c.max_size) (hlen : c.cache.length ≤ c.max_size) :
    (applyOp c op).cache.length ≤ c.max_size := by
  cases op with
  | get k now => exact le_trans (get_len_le c k now) hlen
  | set k v now => exact set_len_bound c k v now hpos hlen

/-- Any run of operations from a within-capacity state stays within capacity. -/
theorem runOps_bound {α : Type} :
    ∀ (ops : List (CacheOp α)) (c : TokenCache α), 0 < c.max_size →
      c.cache.length ≤ c.max_size → (runOps c ops).cache.length ≤ c.max_size := by
  intro ops
  induction ops with
  | nil => intro c _ h2; exact h2
  | cons op ops ih =>
    intro c h1 h2
    have hm := applyOp_max c op
    have hl := applyOp_len c op h1 h2
    have hrec := ih (applyOp c op) (by rw [hm]; exact h1) (by rw [hm]; exact hl)
    rw [runOps]
    rw [hm] at hrec
    exact hrec

/-- The cache list produced by set, spelled out. -/
theorem set_cache_eq {α : Type} (c : TokenCache α) (k : String) (v : α) (now : Nat) :
    (c.set k v now).cache =
      assocSet (if c.max_size ≤ c.cache.length then c.cache.tail else c.cache) k v now :=
  rfl

/-- A successful get means the key was found fresh. -/
theorem get_found_elim {α : Type} (c : TokenCache α) (k : String) (now : Nat)
    (h : (c.get k now).2.1 = true) :
    ∃ e, c.cache.find? (fun x => x.key = k) = some e ∧
      now - e.timestamp < c.ttl_seconds := by
  unfold TokenCache.get at h
  cases hfind : c.cache.find? (fun x => x.key = k) with
  | none => rw [hfind] at h; simp at h
  | some e =>
    rw [hfind] at h
    by_cases hfresh : now - e.timestamp < c.ttl_seconds
    · exact ⟨e, rfl, hfresh⟩
    · simp [hfresh] at h

/-- The state after a fresh hit: the entry is moved to the end. -/
theorem get_hit_state {α : Type} (c : TokenCache α) (k : String) (now : Nat)
    (e : CacheEntry α) (hfind : c.cache.find? (fun x => x.key = k) = some e)
    (hfresh : now - e.timestamp < c.ttl_seconds) :
    ((c.get k now).2.2).cache = removeKey k c.cache ++ [e] := by
  unfold TokenCache.get
  rw [hfind]
  simp [hfresh]

/-- C6: (i) for every sequence of get/set operations from the empty cache the
entry count never exceeds max_size (positive, as instantiated with 1000);
(ii) a set of an absent key while at or above capacity evicts exactly the
front (least-recently-used) entry and appends the new key at the
most-recently-used end; (iii) a get hit within the TTL promotes its key, so
immediately after a hit the key survives any single set — in particular the
oldest-inserted entry survives the insertion of a fresh key at capacity if it
was re-accessed. -/
theorem c6_lru_bound_and_eviction :
    (∀ (α : Type) (ms ttl : Nat) (ops : List (CacheOp α)), 0 < ms →
      (runOps (emptyCache α ms ttl) ops).cache.length ≤ ms)
    ∧ (∀ (α : Type) (c : TokenCache α) (k : String) (v : α) (now : Nat),
        c.max_size ≤ c.cache.length →
        c.cache.find? (fun e => e.key = k) = none →
        (TokenCache.set c k v now).cache = c.cache.tail ++ [⟨k, v, now⟩])
    ∧ (∀ (α : Type) (c : TokenCache α) (k : String) (now : Nat),
        (TokenCache.get c k now).2.1 = true →
        2 ≤ c.cache.length →
        ∀ (k2 : String) (v2 : α) (n2 : Nat),
          ((((TokenCache.get c k now).2.2).set k2 v2 n2).cache.find?
            (fun e => e.key = k)).isSome) := by
  refine ⟨?_, ?_, ?_⟩
  · intro α ms ttl ops hpos
    exact runOps_bound ops (emptyCache α ms ttl) hpos (by simp [emptyCache])
  · intro α c k v now hcap hnone
    have htail := find_none_tail (fun e => e.key = k) c.cache hnone
    unfold TokenCache.set assocSet
    simp [hcap, htail]
  · intro α c k now hfound hlen k2 v2 n2
    obtain ⟨e, hfind, hfresh⟩ := get_found_elim c k now hfound
    have hcache := get_hit_state c k now e hfind hfresh
    have hkey : e.key = k := by
      have := List.find?_some hfind
      simpa using this
    have hs : (c.cache.find? (fun x => x.key = k)).isSome := by rw [hfind]; rfl
    have hrem := removeKey_length k c.cache hs
    have hmem : ((removeKey k c.cache ++ [e]).find? (fun x => x.key = k)).isSome := by
      rw [findIsSome_append]
      simp [List.find?, hkey]
    rw [set_cache_eq]
    apply assocSet_keeps_key
    split
    · -- eviction drops only the front of removeKey, which is nonempty
      rw [hcache]
      have hpos' : 1 ≤ (removeKey k c.cache).length := by omega
      cases hrk : removeKey k c.cache with
      | nil => rw [hrk] at hpos'; simp at hpos'
      | cons b rest =>
        have hres : ((b :: rest ++ [e]).tail.find? (fun x => x.key = k)).isSome := by
          simp only [List.cons_append, List.tail_cons]
          rw [findIsSome_append]
          simp [List.find?, hkey]
        simpa [hrk] using hres
    · rw [hcache]; exact hmem

/-- C6 witness: three inserts, a re-access of the first key, then a fourth
insert at capacity 2 — the run stays within the bound. -/
theorem c6_lru_bound_and_eviction_witness :
    0 < 2 ∧ (runOps (emptyCache Nat 2 300)
      [CacheOp.set "a" 1 0, CacheOp.set "b" 2 1, CacheOp.get "a" 2,
       CacheOp.set "c" 3 3]).cache.length ≤ 2 :=
  ⟨by decide, c6_lru_bound_and_eviction.1 Nat 2 300
    [CacheOp.set "a" 1 0, CacheOp.set "b" 2 1, CacheOp.get "a" 2,
     CacheOp.set "c" 3 3] (by decide)⟩

/-- C10 counterexample: overwriting k1 while the cache is at capacity, where
k1 itself is the least-recently-used front entry: the claim says the cache
shrinks by one entry (to length 1) and the key is not promoted, but in fact
popitem evicts k1 itself and the assignment re-adds it at the
most-recently-used end, so the length stays 2 and k1 is promoted past k2. -/
theorem c10_set_overwrite_counterexample :
    ((c10CacheExample.set "k1" 9 2).cache.map (fun e => e.key) = ["k2", "k1"])
    ∧ (c10CacheExample.set "k1" 9 2).cache.length = 2 := by decide

/-- C10 amended: (i) below capacity, set on a present key overwrites its value
and timestamp in place without promoting it; (ii) at capacity, set always pops
the front entry; if the present key is not the front, the overwrite lands in
place in the shortened list, so the cache shrinks by one entry; (iii) but if
the present key is itself the front (the least-recently-used entry), it is
evicted and re-appended at the most-recently-used end with the new value, so
the length is unchanged and the key is promoted. -/
theorem c10_set_overwrite_amended :
    (∀ (α : Type) (c : TokenCache α) (k : String) (v : α) (now : Nat),
      ¬ c.max_size ≤ c.cache.length →
      ((c.cache.find? (fun e => e.key = k)).isSome) →
      (c.set k v now).cache =
        c.cache.map (fun e => if e.key = k then { e with val := v, timestamp := now } else e))
    ∧ (∀ (α : Type) (c : TokenCache α) (k : String) (v : α) (now : Nat)
        (e0 : CacheEntry α) (rest : List (CacheEntry α)),
        c.cache = e0 :: rest → c.max_size ≤ c.cache.length →
        ¬ e0.key = k → ((rest.find? (fun e => e.key = k)).isSome) →
        (c.set k v now).cache =
          rest.map (fun e => if e.key = k then { e with val := v, timestamp := now } else e)
        ∧ (c.set k v now).cache.length + 1 = c.cache.length)
    ∧ (∀ (α : Type) (c : TokenCache α) (k : String) (v : α) (now : Nat)
        (e0 : CacheEntry α) (rest : List (CacheEntry α)),
        c.cache = e0 :: rest → c.max_size ≤ c.cache.length →
        e0.key = k → rest.find? (fun e => e.key = k) = none →
        (c.set k v now).cache = rest ++ [⟨k, v, now⟩]
        ∧ (c.set k v now).cache.length = c.cache.length) := by
  refine ⟨?_, ?_, ?_⟩
  · intro α c k v now hcap hfind
    unfold TokenCache.set assocSet
    simp [hcap, hfind]
  · intro α c k v now e0 rest hc hcap hk hfind
    have hcap' : c.max_size ≤ (e0 :: rest).length := by rw [← hc]; exact hcap
    have h1 : (c.set k v now).cache = assocSet rest k v now := by
      rw [set_cache_eq, hc, if_pos hcap']
      rfl
    rw [h1]
    unfold assocSet
    constructor
    · simp [hfind]
    · simp [hfind, hc]
  · intro α c k v now e0 rest hc hcap hk hfind
    have hcap' : c.max_size ≤ (e0 :: rest).length := by rw [← hc]; exact hcap
    have h1 : (c.set k v now).cache = assocSet rest k v now := by
      rw [set_cache_eq, hc, if_pos hcap']
      rfl
    rw [h1]
    unfold assocSet
    constructor
    · simp [hfind]
    · simp [hfind, hc]

/-- C10 amended witness: case (iii) evaluated on the concrete two-entry cache
whose front is the key being overwritten. -/
theorem c10_set_overwrite_amended_witness :
    (c10CacheExample.set "k1" 9 2).cache = [⟨"k2", 2, 1⟩, ⟨"k1", 9, 2⟩]
    ∧ (c10CacheExample.set "k1" 9 2).cache.length = c10CacheExample.cache.length :=
  c10_set_overwrite_amended.2.2 Nat c10CacheExample "k1" 9 2 ⟨"k1", 1, 0⟩
    [⟨"k2", 2, 1⟩] rfl (by decide) rfl (by decide)

/-- A header that carries the Bearer scheme is nonempty. -/
theorem startswith_ne_empty (hdr : String) (hb : startswith hdr "Bearer " = true) :
    (hdr == "") = false := by
  by_cases he : hdr = ""
  · subst he
    have hfalse : startswith "" "Bearer " = false := by decide
    rw [hfalse] at hb
    simp at hb
  · simp [he]

/-- In-place update rewrites the first entry carrying the key. -/
theorem find_map_update_self {α : Type} (key : String) (v : α) (now : Nat) :
    ∀ l : List (CacheEntry α), (l.find? (fun e => e.key = key)).isSome →
      ((l.map (fun e => if e.key = key then { e with val := v, timestamp := now } else e)).find?
        (fun e => e.key = key)) = some ⟨key, v, now⟩ := by
  intro l
  induction l with
  | nil => simp
  | cons a t ih =>
    intro h
    by_cases ha : a.key = key
    · simp [List.find?, ha]
    · have h' : (t.find? (fun e => e.key = key)).isSome := by
        rw [List.find?_cons_of_neg] at h
        · exact h
        · simp [ha]
      simp [List.find?, ha, ih h']

/-- After a set, find?-by-key returns exactly the freshly stored entry. -/
theorem set_find_self {α : Type} (c : TokenCache α) (key : String) (v : α) (now : Nat) :
    (c.set key v now).cache.find? (fun e => e.key = key) = some ⟨key, v, now⟩ := by
  rw [set_cache_eq]
  generalize (if c.max_size ≤ c.cache.length then c.cache.tail else c.cache) = l
  unfold assocSet
  split
  · rename_i hs
    exact find_map_update_self key v now l hs
  · rename_i hs
    have hnone : l.find? (fun e => e.key = key) = none := by
      cases hfind : l.find? (fun e => e.key = key)
      · rfl
      · rw [hfind] at hs; simp at hs
    rw [List.find?_append, hnone]
    simp [List.find?]

/-- A get of a key just set hits within the TTL and returns the set value. -/
theorem get_after_set {α : Type} (c : TokenCache α) (key : String) (v : α) (t0 t1 : Nat)
    (httl : t1 - t0 < c.ttl_seconds) :
    (TokenCache.get (c.set key v t0) key t1).1 = some v
    ∧ (TokenCache.get (c.set key v t0) key t1).2.1 = true := by
  unfold TokenCache.get
  rw [set_find_self]
  have hts : (c.set key v t0).ttl_seconds = c.ttl_seconds := rfl
  simp [hts, httl]

/-- C5: once a resolve of a bad credential string has cached the negative
outcome, a resolve of the identical string within the TTL returns
unauthenticated (none) with zero store lookups, zero verifier invocations and
exactly one cache read; and the freshness test applied by get depends only on
the entry timestamp and the single configured ttl_seconds, so a negative
entry lives exactly as long as a positive one inserted at the same instant
(last conjunct, quantified over the stored value). -/
theorem c5_negative_caching (env : AuthEnv) (c : TokenCache AuthVal)
    (hdr : String) (t0 t1 : Nat)
    (hb : startswith hdr "Bearer " = true)
    (ht : startswith (String.drop hdr 7) "tok_" = true)
    (hmiss : (TokenCache.get c (get_cache_key env (String.drop hdr 7)) t0).2.1 = false)
    (hneg : (authenticate_token env (String.drop hdr 7)).1 = (none, none))
    (httl : t1 - t0 < c.ttl_seconds) :
    (authenticate env c hdr t0).1 = none
    ∧ (authenticate env ((authenticate env c hdr t0).2.1) hdr t1).1 = none
    ∧ (authenticate env ((authenticate env c hdr t0).2.1) hdr t1).2.2 = ⟨0, 0, 1, 0⟩
    ∧ (∀ (v : AuthVal) (ms hh mm : Nat),
        (TokenCache.get
          ⟨[⟨get_cache_key env (String.drop hdr 7), v, t0⟩], ms, c.ttl_seconds, hh, mm⟩
          (get_cache_key env (String.drop hdr 7)) t1).2.1 = true) := by
  have hne := startswith_ne_empty hdr hb
  have hcache1 : (authenticate env c hdr t0).2.1 =
      TokenCache.set ((TokenCache.get c (get_cache_key env (String.drop hdr 7)) t0).2.2)
        (get_cache_key env (String.drop hdr 7)) (none, none) t0 := by
    unfold authenticate
    rw [hne, hb]
    simp [ht, hmiss, hneg]
  have hres1 : (authenticate env c hdr t0).1 = none := by
    unfold authenticate
    rw [hne, hb]
    simp [ht, hmiss, hneg]
  have httl1 : t1 - t0 <
      ((TokenCache.get c (get_cache_key env (String.drop hdr 7)) t0).2.2).ttl_seconds := by
    rw [(get_max_ttl c (get_cache_key env (String.drop hdr 7)) t0).2]
    exact httl
  have hget := get_after_set
    ((TokenCache.get c (get_cache_key env (String.drop hdr 7)) t0).2.2)
    (get_cache_key env (String.drop hdr 7)) (none, none) t0 t1 httl1
  refine ⟨hres1, ?_, ?_, ?_⟩
  · rw [hcache1]
    unfold authenticate
    rw [hne, hb]
    simp [ht, hget.1, hget.2]
  · rw [hcache1]
    unfold authenticate
    rw [hne, hb]
    simp [ht, hget.1, hget.2]
  · intro v ms hh mm
    unfold TokenCache.get
    simp [List.find?, httl]

/-- C5 witness: a concrete bad credential against an empty store — the first
resolve returns none and the second, 10 seconds later, is served from the
negative cache and returns none again. -/
theorem c5_negative_caching_witness :
    (authenticate envExample (emptyCache AuthVal 1000 300) "Bearer tok_bad" 0).1 = none
    ∧ (authenticate envExample
        ((authenticate envExample (emptyCache AuthVal 1000 300) "Bearer tok_bad" 0).2.1)
        "Bearer tok_bad" 10).1 = none :=
  ⟨(c5_negative_caching envExample (emptyCache AuthVal 1000 300) "Bearer tok_bad" 0 10
      (by decide) (by decide) (by decide) (by decide) (by decide)).1,
   (c5_negative_caching envExample (emptyCache AuthVal 1000 300) "Bearer tok_bad" 0 10
      (by decide) (by decide) (by decide) (by decide) (by decide)).2.1⟩

/-- C7 counterexample: the claim says a token failing the tok_ structural
check is rejected with no cache access "for every such string", across both
cited resolvers — but the middleware's _authenticate_token_cached consults
the cache before the tok_ check, so the Bearer token "abc" performs a cache
read (and caches a negative), refuting the claim at this input. -/
theorem c7_structural_reject_counterexample :
    ¬ ((mw_process_header envExample (emptyCache AuthVal 1000 300)
        "Bearer abc" 0).2.2.cache_gets = 0) := by decide

/-- C7 amended: (i) the DRF class rejects a header that lacks the Bearer
scheme or whose token lacks the tok_ marker with untouched cache and all-zero
counters; (ii) the middleware rejects a header without the Bearer scheme the
same way; (iii) for a Bearer token without the tok_ marker the middleware
performs no store lookup and no hash verification, but it does consult (and
on a miss populate) the cache. -/
theorem c7_structural_reject_amended :
    (∀ (env : AuthEnv) (c : TokenCache AuthVal) (hdr : String) (now : Nat),
      (startswith hdr "Bearer " = false ∨
        startswith (String.drop hdr 7) "tok_" = false) →
      authenticate env c hdr now = (none, c, ⟨0, 0, 0, 0⟩))
    ∧ (∀ (env : AuthEnv) (c : TokenCache AuthVal) (hdr : String) (now : Nat),
        startswith hdr "Bearer " = false →
        mw_process_header env c hdr now = ((none, none), c, ⟨0, 0, 0, 0⟩))
    ∧ (∀ (env : AuthEnv) (c : TokenCache AuthVal) (token : String) (now : Nat),
        startswith token "tok_" = false →
        (mw_authenticate_token_cached env c token now).2.2.store_lookups = 0
        ∧ (mw_authenticate_token_cached env c token now).2.2.verify_calls = 0) := by
  refine ⟨?_, ?_, ?_⟩
  · intro env c hdr now hfail
    rcases hfail with hb | ht
    · unfold authenticate
      rw [hb]
      simp
    · by_cases hb : startswith hdr "Bearer " = true
      · have hne := startswith_ne_empty hdr hb
        unfold authenticate
        rw [hne, hb]
        simp [ht]
      · have hb' : startswith hdr "Bearer " = false := by
          simpa using hb
        unfold authenticate
        rw [hb']
        simp
  · intro env c hdr now hb
    have hex : extract_token hdr = none := by
      unfold extract_token
      rw [hb]
      simp
    unfold mw_process_header
    rw [hex]
  · intro env c token now ht
    have hmw : mw_authenticate_token env token = ((none, none), ⟨0, 0, 0, 0⟩) := by
      unfold mw_authenticate_token
      rw [ht]
      simp
    by_cases hfound : (TokenCache.get c (get_cache_key env token) now).2.1 = true
    · unfold mw_authenticate_token_cached
      simp [hfound]
    · have hfound' : (TokenCache.get c (get_cache_key env token) now).2.1 = false := by
        simpa using hfound
      unfold mw_authenticate_token_cached
      simp [hfound', hmw]

/-- C7 amended witness: the DRF class on the malformed header "xyz" — no
cache access, no store access, immediate rejection. -/
theorem c7_structural_reject_amended_witness :
    authenticate envExample (emptyCache AuthVal 1000 300) "xyz" 0 =
      (none, emptyCache AuthVal 1000 300, ⟨0, 0, 0, 0⟩) :=
  c7_structural_reject_amended.1 envExample (emptyCache AuthVal 1000 300) "xyz" 0
    (Or.inl (by decide))

/-- A map that preserves a predicate commutes with find?. -/
theorem find_map_pred_pres {α : Type} (f : α → α) (P : α → Bool)
    (hP : ∀ a, P (f a) = P a) :
    ∀ l : List α, (l.map f).find? P = (l.find? P).map f := by
  intro l
  induction l with
  | nil => rfl
  | cons a t ih =>
    by_cases h : P a = true
    · rw [List.map_cons, List.find?_cons_of_pos _ (by rw [hP]; exact h),
        List.find?_cons_of_pos _ h]
      rfl
    · rw [List.map_cons, List.find?_cons_of_neg _ (by rw [hP]; exact h),
        List.find?_cons_of_neg _ h]
      exact ih

/-- get_or_create_current_billing_period never touches the request logs. -/
theorem goc_logs (db : Db) (u : Nat) (today : Date) :
    (get_or_create_current_billing_period db u today).2.logs = db.logs := by
  unfold get_or_create_current_billing_period
  dsimp only
  split
  · split <;> rfl
  · rfl

/-- The F-expression UPDATE adds to the stored values of the addressed row:
looking the row up afterwards sees exactly the stored values plus the
deltas. -/
theorem findPeriod_increment (db : Db) (pid : Nat) (c : Int) :
    findPeriod (apply_f_increment db pid c) pid =
      (findPeriod db pid).map (fun p =>
        { p with total_requests := p.total_requests + 1,
                 total_cost_cents := p.total_cost_cents + c }) := by
  unfold findPeriod apply_f_increment
  rw [find_map_pred_pres
    (fun p => if p.id = pid then
      { p with total_requests := p.total_requests + 1,
               total_cost_cents := p.total_cost_cents + c } else p)
    (fun p => p.id = pid) (fun p => by by_cases h : p.id = pid <;> simp [h])
    db.periods]
  cases hq : db.periods.find? (fun p => p.id = pid) with
  | none => rfl
  | some q =>
    have hqid : q.id = pid := by
      have := List.find?_some hq
      simpa using this
    simp [hqid]

/-- The row returned by get_or_create_current_billing_period is present in the
resulting store under its id. -/
theorem goc_result_found (db : Db) (u : Nat) (today : Date) :
    (findPeriod (get_or_create_current_billing_period db u today).2
      (get_or_create_current_billing_period db u today).1.id).isSome := by
  unfold get_or_create_current_billing_period
  dsimp only
  split
  · rename_i p heq
    split
    · unfold findPeriod
      rw [List.find?_isSome]
      exact ⟨p, List.mem_of_find?_eq_some heq, by simp⟩
    · unfold findPeriod
      rw [List.find?_isSome]
      refine ⟨{ p with is_current := true }, ?_, by simp⟩
      unfold update_row
      exact List.mem_map.mpr ⟨p, List.mem_of_find?_eq_some heq, by simp⟩
  · unfold findPeriod
    rw [List.find?_isSome]
    refine ⟨⟨db.nextId, u, ⟨today.year, today.month, 1⟩,
      (if today.month = 12 then prevDay ⟨today.year + 1, 1, 1⟩
        else prevDay ⟨today.year, today.month + 1, 1⟩),
      0, 0, true, .pending, none, none, none, none⟩, ?_, by simp⟩
    exact List.mem_append_right _ (by simp)

/-- C1: with no injected store failure, both the success and the OpenAIError
branch of SolveView.post create exactly one RequestLog row (first conjunct,
with outcome universally quantified); the billing period resolved for the
owner is present in the store and its stored totals grow by exactly
(1, cost_per_request_cents) (second and third conjuncts); and the increment
is a store-level one — it adds to whatever is currently stored, so two
increments compose additively with no lost update, unlike a read-modify-write
of previously fetched values (fourth conjunct). -/
theorem c1_metering_and_atomic_increment :
    (∀ (db : Db) (a : SolveArgs) (outcome : SolveOutcome),
      (solve_post false false db a outcome).2.logs.length = db.logs.length + 1)
    ∧ (∀ (db : Db) (a : SolveArgs) (outcome : SolveOutcome),
        findPeriod (solve_post false false db a outcome).2
            (get_or_create_current_billing_period db a.userId a.today).1.id =
          (findPeriod (get_or_create_current_billing_period db a.userId a.today).2
              (get_or_create_current_billing_period db a.userId a.today).1.id).map
            (fun p => { p with
                total_requests := p.total_requests + 1
                total_cost_cents := p.total_cost_cents + a.cost_per_request_cents }))
    ∧ (∀ (db : Db) (a : SolveArgs),
        (findPeriod (get_or_create_current_billing_period db a.userId a.today).2
          (get_or_create_current_billing_period db a.userId a.today).1.id).isSome)
    ∧ (∀ (db0 : Db) (pid : Nat) (c1 c2 : Int),
        findPeriod (apply_f_increment (apply_f_increment db0 pid c1) pid c2) pid =
          (findPeriod db0 pid).map (fun p =>
            { p with
                total_requests := p.total_requests + 2
                total_cost_cents := p.total_cost_cents + c1 + c2 })) := by
  refine ⟨?_, ?_, ?_, ?_⟩
  · intro db a outcome
    cases outcome <;>
      simp [solve_post, defer_logging, defer_logging_body, apply_f_increment,
        goc_logs]
  · intro db a outcome
    cases outcome <;>
      · simp only [solve_post, defer_logging, defer_logging_body]
        simp only [Bool.false_eq_true, if_false]
        rw [findPeriod_increment]
        rfl
  · intro db a
    exact goc_result_found db a.userId a.today
  · intro db0 pid c1 c2
    rw [findPeriod_increment, findPeriod_increment, Option.map_map]
    cases hq : findPeriod db0 pid with
    | none => rfl
    | some q =>
      have h1 : q.total_requests + 1 + 1 = q.total_requests + 2 := by omega
      simp [Function.comp, h1]

/-- C4 counterexample: with the RequestLog insert failing after a successful
vision-model call, SolveView.post still answers HTTP 200 (reports success)
while no ledger state was written — the claim's "does not report success" is
false at this input. -/
theorem c4_ledger_failure_counterexample :
    (solve_post true false dbExample argsExample (SolveOutcome.success "ans")).1.ok
        = true
    ∧ (solve_post true false dbExample argsExample
        (SolveOutcome.success "ans")).2 = dbExample := by decide

/-- C4 amended: if the RequestLog insert or the BillingPeriod increment fails
after the billable call succeeded, _defer_logging rolls the transaction back
and swallows the exception, and SolveView.post still returns the success
response — the write is best-effort and the caller is told 200 with the store
unchanged. -/
theorem c4_ledger_failure_amended :
    (∀ (db : Db) (a : SolveArgs) (r : String),
      solve_post true false db a (SolveOutcome.success r) =
        ({ http_status := 200, ok := true }, db))
    ∧ (∀ (db : Db) (a : SolveArgs) (r : String),
        solve_post false true db a (SolveOutcome.success r) =
          ({ http_status := 200, ok := true }, db)) := by
  constructor <;> intro db a r <;> rfl

/-- The month-end computation of get_or_create_current_billing_period equals
the last day of the month, December rollover included. -/
theorem period_end_eq_last_day (y m : Nat) (h1 : 1 ≤ m) (h2 : m ≤ 12) :
    (if m = 12 then prevDay ⟨y + 1, 1, 1⟩ else prevDay ⟨y, m + 1, 1⟩) =
      lastDayOfMonth y m := by
  by_cases hm : m = 12
  · subst hm
    simp [prevDay, lastDayOfMonth, daysInMonth, isLeapYear]
  · rw [if_neg hm]
    have hB : 2 ≤ m + 1 := by omega
    simp [prevDay, hB, lastDayOfMonth]

/-- After the clear-current UPDATE no row of the user is current. -/
theorem clear_current_no_current (periods : List BillingPeriod) (u : Nat) :
    (clear_current_periods periods u).filter
      (fun p => p.userId = u && p.is_current) = [] := by
  rw [List.filter_eq_nil_iff]
  intro p hp
  unfold clear_current_periods at hp
  obtain ⟨q, hq, rfl⟩ := List.mem_map.mp hp
  cases hqc : q.is_current <;> by_cases h1 : q.userId = u <;> simp [hqc, h1]

/-- The clear-current UPDATE commutes with the (user, period_start) lookup. -/
theorem clear_current_find_match (periods : List BillingPeriod) (u : Nat) (ps : Date) :
    (clear_current_periods periods u).find?
        (fun p => p.userId = u && p.period_start = ps) =
      (periods.find? (fun p => p.userId = u && p.period_start = ps)).map
        (fun p => if p.userId = u && p.is_current then
          { p with is_current := false } else p) := by
  unfold clear_current_periods
  exact find_map_pred_pres _ _ (fun p => by split <;> rfl) periods

/-- Counting rows by id equals counting the id in the projected id list. -/
theorem countP_id_count (l : List BillingPeriod) (pid : Nat) :
    l.countP (fun q => q.id = pid) = (l.map (fun q => q.id)).count pid := by
  induction l with
  | nil => simp
  | cons a t ih =>
    by_cases h : a.id = pid <;>
      simp [List.countP_cons, List.count_cons, h, ih]

/-- The single-row UPDATE: if no stored row satisfies P but the written row
does, the rows satisfying P afterwards are exactly the addressed ones. -/
theorem countP_update_row (l : List BillingPeriod) (pid : Nat) (p' : BillingPeriod)
    (P : BillingPeriod → Bool) (hall : ∀ q ∈ l, P q = false) (hp' : P p' = true) :
    (update_row l pid p').countP P = l.countP (fun q => q.id = pid) := by
  unfold update_row
  rw [List.countP_map]
  apply List.countP_congr
  intro q hq
  by_cases h : q.id = pid
  · simp [Function.comp, h, hp']
  · simp [Function.comp, h, hall q hq]

/-- The clear-current UPDATE does not change the stored primary keys. -/
theorem clear_current_ids (periods : List BillingPeriod) (u : Nat) :
    (clear_current_periods periods u).map (fun p => p.id) =
      periods.map (fun p => p.id) := by
  unfold clear_current_periods
  rw [List.map_map]
  apply List.map_congr_left
  intro q hq
  by_cases h1 : q.userId = u <;> cases hqc : q.is_current <;>
    simp [Function.comp, h1, hqc]

/-- C2: under the stored-data invariants the database actually enforces
(unique primary keys; rows keyed by the month's first day carry the month's
last day as period_end), every call returns a period whose period_start is
the first day of the current month, whose period_end is the last day of that
month (December rollover included, proved by period_end_eq_last_day), and
which is current; afterwards exactly one row of the owner is current; and for
first calls in a month (no row for the month exists yet) a subsequent call of
the same owner in the same month — the serialization of a concurrent racer,
every call being one atomic transaction — returns a row with the same id. -/
theorem c2_current_period_resolution (db : Db) (u : Nat) (today : Date)
    (hm1 : 1 ≤ today.month) (hm2 : today.month ≤ 12)
    (hid : (db.periods.map (fun p => p.id)).Nodup)
    (hwf : ∀ p ∈ db.periods, p.userId = u →
      p.period_start = ⟨today.year, today.month, 1⟩ →
      p.period_end = lastDayOfMonth today.year today.month) :
    (get_or_create_current_billing_period db u today).1.period_start =
        ⟨today.year, today.month, 1⟩
    ∧ (get_or_create_current_billing_period db u today).1.period_end =
        lastDayOfMonth today.year today.month
    ∧ (get_or_create_current_billing_period db u today).1.is_current = true
    ∧ ((get_or_create_current_billing_period db u today).2.periods.filter
        (fun p => p.userId = u && p.is_current)).length = 1
    ∧ (∀ today' : Date, today'.year = today.year → today'.month = today.month →
        db.periods.find? (fun p => p.userId = u &&
          p.period_start = (⟨today.year, today.month, 1⟩ : Date)) = none →
        (get_or_create_current_billing_period
            (get_or_create_current_billing_period db u today).2 u today').1.id =
          (get_or_create_current_billing_period db u today).1.id) := by
  cases hfind : (clear_current_periods db.periods u).find?
      (fun p => p.userId = u &&
        p.period_start = (⟨today.year, today.month, 1⟩ : Date)) with
  | none =>
    have hg : get_or_create_current_billing_period db u today =
        (⟨db.nextId, u, ⟨today.year, today.month, 1⟩,
          (if today.month = 12 then prevDay ⟨today.year + 1, 1, 1⟩
            else prevDay ⟨today.year, today.month + 1, 1⟩),
          0, 0, true, .pending, none, none, none, none⟩,
         { periods := clear_current_periods db.periods u ++
            [⟨db.nextId, u, ⟨today.year, today.month, 1⟩,
              (if today.month = 12 then prevDay ⟨today.year + 1, 1, 1⟩
                else prevDay ⟨today.year, today.month + 1, 1⟩),
              0, 0, true, .pending, none, none, none, none⟩],
           logs := db.logs, nextId := db.nextId + 1 }) := by
      unfold get_or_create_current_billing_period
      dsimp only
      rw [hfind]
    rw [hg]
    refine ⟨rfl, period_end_eq_last_day today.year today.month hm1 hm2, rfl, ?_, ?_⟩
    · rw [List.filter_append, clear_current_no_current]
      simp
    · intro today' hy hm hnone
      have hps' : (⟨today'.year, today'.month, 1⟩ : Date) =
          ⟨today.year, today.month, 1⟩ := by rw [hy, hm]
      have hfind2 : (clear_current_periods
            (clear_current_periods db.periods u ++
              [⟨db.nextId, u, ⟨today.year, today.month, 1⟩,
                (if today.month = 12 then prevDay ⟨today.year + 1, 1, 1⟩
                  else prevDay ⟨today.year, today.month + 1, 1⟩),
                0, 0, true, .pending, none, none, none, none⟩]) u).find?
          (fun p => p.userId = u &&
            p.period_start = (⟨today'.year, today'.month, 1⟩ : Date)) =
          some ⟨db.nextId, u, ⟨today.year, today.month, 1⟩,
            (if today.month = 12 then prevDay ⟨today.year + 1, 1, 1⟩
              else prevDay ⟨today.year, today.month + 1, 1⟩),
            0, 0, false, .pending, none, none, none, none⟩ := by
        rw [hps']
        unfold clear_current_periods
        rw [List.map_append, List.find?_append]
        have hpre : ((db.periods.map (fun p =>
            if p.userId = u && p.is_current then { p with is_current := false } else p)).map
              (fun p =>
                if p.userId = u && p.is_current then { p with is_current := false } else p)).find?
            (fun p => p.userId = u &&
              p.period_start = (⟨today.year, today.month, 1⟩ : Date)) = none := by
          rw [find_map_pred_pres _ _ (fun p => by split <;> rfl),
            find_map_pred_pres _ _ (fun p => by split <;> rfl), hnone]
          rfl
        rw [hpre]
        simp [List.find?]
      unfold get_or_create_current_billing_period
      dsimp only
      rw [hfind2]
      simp
  | some p =>
    have hPp := List.find?_some hfind
    simp only [Bool.and_eq_true, decide_eq_true_eq] at hPp
    have hpmem := List.mem_of_find?_eq_some hfind
    unfold clear_current_periods at hpmem
    obtain ⟨q, hq, hfq⟩ := List.mem_map.mp hpmem
    have hqid : p.id = q.id := by rw [← hfq]; split <;> rfl
    have hquser : p.userId = q.userId := by rw [← hfq]; split <;> rfl
    have hqps : p.period_start = q.period_start := by rw [← hfq]; split <;> rfl
    have hqpe : p.period_end = q.period_end := by rw [← hfq]; split <;> rfl
    have hqu : q.userId = u := by rw [← hquser]; exact hPp.1
    have hpc : p.is_current = false := by
      rw [← hfq]
      cases hqc : q.is_current
      · simp [hqc]
      · simp [hqu, hqc]
    have hg : get_or_create_current_billing_period db u today =
        ({ p with is_current := true },
         { periods := update_row (clear_current_periods db.periods u) p.id
            { p with is_current := true },
           logs := db.logs, nextId := db.nextId }) := by
      unfold get_or_create_current_billing_period
      dsimp only
      rw [hfind]
      dsimp only
      rw [hpc]
      simp
    rw [hg]
    refine ⟨hPp.2, ?_, rfl, ?_, ?_⟩
    · show p.period_end = lastDayOfMonth today.year today.month
      rw [hqpe]
      exact hwf q hq hqu (by rw [← hqps]; exact hPp.2)
    · have hall : ∀ x ∈ clear_current_periods db.periods u,
          (fun p => p.userId = u && p.is_current : BillingPeriod → Bool) x = false := by
        have hnil := clear_current_no_current db.periods u
        rw [List.filter_eq_nil_iff] at hnil
        intro x hx
        simpa using hnil x hx
      have hp' : (fun pp => pp.userId = u && pp.is_current : BillingPeriod → Bool)
          { p with is_current := true } = true := by
        simp [hPp.1]
      rw [← List.countP_eq_length_filter,
        countP_update_row _ _ _ _ hall hp', countP_id_count, clear_current_ids,
        hqid]
      exact List.count_eq_one_of_mem hid (List.mem_map.mpr ⟨q, hq, rfl⟩)
    · intro today' hy hm hnone
      exfalso
      rw [clear_current_find_match, hnone] at hfind
      simp at hfind

/-- C2 witness: a first call for owner 7 on an empty store in December 2025
— the December-to-January rollover yields period_end 2025-12-31 and the
returned row is current. -/
theorem c2_current_period_resolution_witness :
    (get_or_create_current_billing_period ⟨[], [], 0⟩ 7 ⟨2025, 12, 15⟩).1.period_end =
        lastDayOfMonth 2025 12
    ∧ (get_or_create_current_billing_period ⟨[], [], 0⟩ 7
        ⟨2025, 12, 15⟩).1.is_current = true :=
  ⟨(c2_current_period_resolution ⟨[], [], 0⟩ 7 ⟨2025, 12, 15⟩ (by decide) (by decide)
      (by simp) (by simp)).2.1,
   (c2_current_period_resolution ⟨[], [], 0⟩ 7 ⟨2025, 12, 15⟩ (by decide) (by decide)
      (by simp) (by simp)).2.2.1⟩

end Trc
